import Mathlib

/-!
Shallow embedding of the 404-page resolution code in
`readthedocs/core/views/__init__.py`: the `server_error_404` handler, the
`server_error_404_subdomain` handler and its inner helper `resolve_404_path`.

External collaborators (the path resolver, the symlink layout roots, the
redirect lookup, the host-to-project classifier and the content store) are
passed in as an explicit environment of functions, mirroring the spec's
"external interfaces" section.  Machine-level effects are made explicit:
logging calls become an output list of log entries, and each
`os.path.exists` probe is recorded in an output list of probed paths, in
the order the code issues them.  A Python exception escaping the handler
(the `IndexError` that `filename[0]` would raise on an empty string) is
modelled as the `Option` value `none`.
-/

namespace RtdViews

/-- Privacy classification of a project or version
(`readthedocs.projects.constants`): `PRIVATE` or anything else. -/
inductive PrivacyLevel where
  | publicLevel
  | privateLevel
deriving DecidableEq

/-- The `PRIVATE` constant imported from `readthedocs.projects.constants`. -/
def PRIVATE : PrivacyLevel := PrivacyLevel.privateLevel

/-- A version record: belongs to one project, has a slug and a privacy
classification.  Only the fields the excerpt reads are modelled. -/
structure Version where
  slug : String
  privacy_level : PrivacyLevel
deriving DecidableEq

/-- A project record.  `default_version` is modelled from the spec:
`project.get_default_version()` lives in `readthedocs/projects/models.py`,
outside the excerpt; the spec gives it as the external interface
`defaultVersionOf(project) -> versionSlug`. -/
structure Project where
  slug : String
  privacy_level : PrivacyLevel
  single_version : Bool
  default_version : String
  versions : List Version
deriving DecidableEq

/-- The subset of a Django request the excerpt reads: the `subdomain` and
`cname` attributes (`getattr(request, _, False)`), `request.get_full_path()`
and `request.build_absolute_uri()`. -/
structure Request where
  subdomain : Bool
  cname : Bool
  full_path : String
  absolute_uri : String
deriving DecidableEq

/-- A redirect response as produced by `get_redirect_response`: the code
only reads its `url` attribute. -/
structure RedirectResponse where
  url : String
deriving DecidableEq

/-- The HTTP responses the handlers build: an `HttpResponseRedirect`, a
`django.views.static.serve` of `filename` under `basepath` with its status
code overwritten, or a rendered template with a status code. -/
inductive Response where
  | redirect (url : String)
  | file (filename : String) (basepath : String) (status : Nat)
  | rendered (template : String) (status : Nat)
deriving DecidableEq

/-- The two log calls the excerpt makes: `log.warning` on a self-redirect
loop, and `log.debug` before serving a custom 404 page. -/
inductive LogEntry where
  | infiniteRedirectWarning (url : String)
  | serving404Debug (projectSlug : String) (slug : Option String)
deriving DecidableEq

/-- Whether a string begins with the path separator `/`. -/
def beginsWithSep (s : String) : Bool :=
  match s.data with
  | [] => false
  | c :: _ => c == '/'

/-- Whether a string begins with two path separators `//`. -/
def beginsWithTwoSeps (s : String) : Bool :=
  match s.data with
  | c :: c2 :: _ => c == '/' && c2 == '/'
  | _ => false

/-- Whether a string ends with the path separator `/`. -/
def endsWithSep (s : String) : Bool :=
  match s.data.getLast? with
  | some c => c == '/'
  | none => false

/-- The statement `if filename[0] == '/': filename = filename[1:]` of
`resolve_404_path`: on an empty string, Python's `filename[0]` raises
`IndexError`, modelled as `none`; otherwise one leading `/` is removed
when present. -/
def stripLeadingSlash (s : String) : Option String :=
  match s.data with
  | [] => none
  | c :: rest => some (if c = '/' then String.mk rest else s)

/-- Python's `os.path.join` (posix, two arguments): an absolute second
component discards the first; otherwise the components are joined with a
single separator. -/
def os_path_join (a b : String) : String :=
  if beginsWithSep b then b
  else if a = "" ∨ endsWithSep a = true then a ++ b
  else a ++ "/" ++ b

/-- Characters of `l` strictly before the first occurrence of `c`. -/
def takeUntilChar (c : Char) (l : List Char) : List Char :=
  l.takeWhile (fun x => x != c)

/-- Characters of `l` strictly after the first occurrence of `c`
(empty when `c` does not occur). -/
def dropPastChar (c : Char) (l : List Char) : List Char :=
  (l.dropWhile (fun x => x != c)).drop 1

/-- Python's `urllib.parse._splitparams`: split `;`-parameters off the last
path segment (the first `;` at or after the last `/`, or the first `;`
when there is no `/`). -/
def splitParamsL (l : List Char) : List Char × List Char :=
  if '/' ∈ l then
    let t := (l.reverse.takeWhile (fun x => x != '/')).reverse
    let p := (l.reverse.dropWhile (fun x => x != '/')).reverse
    if ';' ∈ t then (p ++ takeUntilChar ';' t, dropPastChar ';' t)
    else (l, [])
  else if ';' ∈ l then (takeUntilChar ';' l, dropPastChar ';' l)
  else (l, [])

/-- Split a character list on `/`, keeping empty segments, like Python's
`str.split('/')`. -/
def splitSegs : List Char → List (List Char)
  | [] => [[]]
  | c :: rest =>
    if c = '/' then [] :: splitSegs rest
    else
      match splitSegs rest with
      | s :: ss => (c :: s) :: ss
      | [] => [[c]]

/-- Interleave `/` between segments, the inverse of `splitSegs`. -/
def joinSegs : List (List Char) → List Char
  | [] => []
  | [x] => x
  | x :: xs => x ++ '/' :: joinSegs xs

/-- Model of `urllib.parse.urlparse` restricted to relative references, the
only inputs the call site produces (`request.get_full_path()` starts with
`/`, so no scheme is ever present): returns
`(scheme, netloc, path, params, query, fragment)` with the fragment split
at the first `#`, the query at the first `?` before it, a netloc taken
when the remainder starts with `//`, and `;`-parameters split off the last
path segment. -/
def urlparse (s : String) : String × String × String × String × String × String :=
  let d := s.data
  let fragment := dropPastChar '#' d
  let rest := takeUntilChar '#' d
  let query := dropPastChar '?' rest
  let rest2 := takeUntilChar '?' rest
  let netpair :=
    if rest2.take 2 = ['/', '/'] then
      (takeUntilChar '/' (rest2.drop 2), (rest2.drop 2).dropWhile (fun x => x != '/'))
    else ([], rest2)
  let pp := splitParamsL netpair.2
  ("", String.mk netpair.1, String.mk pp.1, String.mk pp.2, String.mk query,
    String.mk fragment)

/-- The `path` component of `urlparse`. -/
def urlparse_path (s : String) : String :=
  (urlparse s).2.2.1

/-- Modelled from the spec: `language_and_version_from_path` from
`readthedocs/redirects/utils.py` is not part of the excerpt.  The spec
(Request Classifier) says the remaining path is decomposed "by splitting on
the first two path segments" into `(language, versionSlug, filePath)`; when
fewer than two segments exist both stay absent and the path is returned
unchanged. -/
def language_and_version_from_path (path : String) :
    Option String × Option String × String :=
  let l := path.data
  let l := if l.head? = some '/' then l.drop 1 else l
  match splitSegs l with
  | lang :: ver :: rest =>
    (some (String.mk lang), some (String.mk ver), String.mk (joinSegs rest))
  | _ => (none, none, path)

/-- The external collaborators the excerpt calls, as the spec's "external
interfaces": the path resolver `readthedocs.core.resolver.resolve_path`
(project, version slug, language, filename, subdomain flag), the content
store existence check `os.path.exists`, the two symlink layout roots
`PublicSymlink(project).project_root` and
`PrivateSymlink(project).project_root`, the host/path classifier
`project_and_path_from_request` and the redirect lookup
`get_redirect_response`, all from modules outside the excerpt. -/
structure Env where
  resolve_path : Project → Option String → Option String → String → Bool → String
  path_exists : String → Bool
  public_root : Project → String
  private_root : Project → String
  project_and_path_from_request : Request → String → Option Project × String
  get_redirect_response : Request → String → Option RedirectResponse

/-- The version lookup of `resolve_404_path`:
`if version_slug:` is Python truthiness (both `None` and the empty string
skip the lookup), then `project.versions.filter(slug=version_slug)` with
`.first()` on a non-empty queryset. -/
def lookupVersion (project : Project) (version_slug : Option String) :
    Option Version :=
  match version_slug with
  | some s => if s = "" then none else project.versions.find? (fun v => v.slug == s)
  | none => none

/-- The inner helper `resolve_404_path` of `server_error_404_subdomain`:
resolve the filename through the path resolver (with `subdomain=True`),
strip one leading `/`, pick the private or public root from the effective
privacy (`any([version and version.privacy_level == PRIVATE, not version
and project.privacy_level == PRIVATE])`), and join.  Returns
`(basepath, filename, fullpath)`; `none` models the `IndexError` raised
when the resolved path is empty. -/
def resolve_404_path (env : Env) (project : Project)
    (version_slug : Option String) (language : Option String)
    (filename0 : String) : Option (String × String × String) :=
  match stripLeadingSlash (env.resolve_path project version_slug language filename0 true) with
  | none => none
  | some filename =>
    let version := lookupVersion project version_slug
    let isPrivate : Bool :=
      match version with
      | some v => v.privacy_level == PRIVATE
      | none => project.privacy_level == PRIVATE
    let basepath := if isPrivate then env.private_root project else env.public_root project
    let fullpath := os_path_join basepath filename
    some (basepath, filename, fullpath)

/-- The outer loop tuple `(version_slug, project.get_default_version())`. -/
def candidate_versions (version_slug : Option String) (default_version : String) :
    List (Option String) :=
  [version_slug, some default_version]

/-- The inner loop tuple `('404.html', '404/index.html')`. -/
def candidate_filenames : List String :=
  ["404.html", "404/index.html"]

/-- The four `(slug, tryfile)` pairs of the two nested `for` loops, in
iteration order. -/
def candidate_list (version_slug : Option String) (default_version : String) :
    List (Option String × String) :=
  [(version_slug, "404.html"), (version_slug, "404/index.html"),
   (some default_version, "404.html"), (some default_version, "404/index.html")]

/-- The nested `for` loops of `server_error_404_subdomain`: for each
candidate in order, resolve its path and probe the content store; the
first existing candidate `(slug, filename, basepath)` is the result.
Returns the probed full paths in order together with the result; `none`
models an escaping exception from `resolve_404_path`. -/
def searchCandidates (env : Env) (project : Project) (language : Option String) :
    List (Option String × String) →
    Option (List String × Option (Option String × String × String))
  | [] => some ([], none)
  | (slug, tryfile) :: rest =>
    match resolve_404_path env project slug language tryfile with
    | none => none
    | some (basepath, filename, fullpath) =>
      if env.path_exists fullpath then
        some ([fullpath], some (slug, filename, basepath))
      else
        match searchCandidates env project language rest with
        | none => none
        | some (probed, r) => some (fullpath :: probed, r)

/-- The classification step of `server_error_404_subdomain`: `language` and
`version_slug` start as `None`, the path component is taken from
`urlparse(full_path)`, and unless the project is `single_version` the path
is decomposed by `language_and_version_from_path`. -/
def classify_subdomain (project : Project) (full_path : String) :
    Option String × Option String :=
  let path := urlparse_path full_path
  if !project.single_version then
    let r := language_and_version_from_path path
    (r.1, r.2.1)
  else (none, none)

/-- The handler `server_error_404_subdomain`: classify the request, search
the four candidates, serve the first existing one via `static_serve` with
status forced to 404 (after a `log.debug`), and otherwise render the
default template with status 404.  The second output component collects
the log entries, the third the probed full paths in order. -/
def server_error_404_subdomain (env : Env) (request : Request)
    (template_name : String) : Option (Response × List LogEntry × List String) :=
  match env.project_and_path_from_request request request.full_path with
  | (some project, full_path) =>
    match searchCandidates env project (classify_subdomain project full_path).1
        (candidate_list (classify_subdomain project full_path).2
          project.default_version) with
    | none => none
    | some (probed, some (slug, filename, basepath)) =>
      some (Response.file filename basepath 404,
        [LogEntry.serving404Debug project.slug slug], probed)
    | some (probed, none) =>
      some (Response.rendered template_name 404, [], probed)
  | (none, _) => some (Response.rendered template_name 404, [], [])

/-- The tail of `server_error_404` after the redirect check: dispatch to
`server_error_404_subdomain` when the request carries a subdomain or cname
attribute, else render the default template with status 404. -/
def server_error_404_rest (env : Env) (request : Request)
    (template_name : String) : Option (Response × List LogEntry × List String) :=
  if request.subdomain || request.cname then
    server_error_404_subdomain env request template_name
  else
    some (Response.rendered template_name 404, [], [])

/-- The handler `server_error_404`: ask `get_redirect_response` first; a
response whose `url` equals `request.build_absolute_uri()` is suppressed
with a `log.warning` and the handler falls through, any other response is
returned; then the subdomain check and the default 404 rendering. -/
def server_error_404 (env : Env) (request : Request)
    (template_name : String) : Option (Response × List LogEntry × List String) :=
  match env.get_redirect_response request request.full_path with
  | some response =>
    if response.url = request.absolute_uri then
      (server_error_404_rest env request template_name).map
        (fun x => (x.1, LogEntry.infiniteRedirectWarning response.url :: x.2.1, x.2.2))
    else
      some (Response.redirect response.url, [], [])
  | none => server_error_404_rest env request template_name

/-- The sequence of content-store probes a subdomain 404 issues. -/
def subdomain_probes (env : Env) (request : Request) (template_name : String) :
    Option (List String) :=
  (server_error_404_subdomain env request template_name).map (fun x => x.2.2)

/-- A sample project: public, two-segment URLs, default version `latest`,
one private version `v2`. -/
def wProject : Project :=
  { slug := "p", privacy_level := PrivacyLevel.publicLevel, single_version := false,
    default_version := "latest",
    versions := [{ slug := "v2", privacy_level := PrivacyLevel.privateLevel }] }

/-- A sample environment: the resolver builds `/slug/filename`, nothing
exists on the store, no redirect matches, every request classifies to
`wProject`. -/
def wEnv : Env :=
  { resolve_path := fun _ vs _ f _ => "/" ++ vs.getD "x" ++ "/" ++ f,
    path_exists := fun _ => false,
    public_root := fun pr => "pub/" ++ pr.slug,
    private_root := fun pr => "priv/" ++ pr.slug,
    project_and_path_from_request := fun _ fp => (some wProject, fp),
    get_redirect_response := fun _ _ => none }

/-- A sample subdomain request for `/en/v2/missing?x=1`. -/
def wReq : Request :=
  { subdomain := true, cname := false, full_path := "/en/v2/missing?x=1",
    absolute_uri := "https://p.example.com/en/v2/missing?x=1" }

/-- A public project owning a version record whose slug is the empty
string and whose privacy is `PRIVATE`. -/
def c3Project : Project :=
  { slug := "p3", privacy_level := PrivacyLevel.publicLevel, single_version := false,
    default_version := "latest",
    versions := [{ slug := "", privacy_level := PrivacyLevel.privateLevel }] }

/-- An environment whose resolver returns the fixed path `/x`. -/
def c3Env : Env :=
  { resolve_path := fun _ _ _ _ _ => "/x",
    path_exists := fun _ => false,
    public_root := fun _ => "pubroot",
    private_root := fun _ => "privroot",
    project_and_path_from_request := fun _ fp => (none, fp),
    get_redirect_response := fun _ _ => none }

/-- An environment whose resolver returns a path with two leading
separators. -/
def c4Env : Env :=
  { c3Env with resolve_path := fun _ _ _ _ _ => "//x" }

/-- An environment with a constant resolver output `/p`, used to exercise
the full search. -/
def c5Env : Env :=
  { resolve_path := fun _ _ _ _ _ => "/p",
    path_exists := fun _ => false,
    public_root := fun _ => "PB",
    private_root := fun _ => "PR",
    project_and_path_from_request := fun _ fp => (some wProject, fp),
    get_redirect_response := fun _ _ => none }

/-- An environment whose redirect lookup always matches with target
`https://t/new`. -/
def r2Env : Env :=
  { c5Env with get_redirect_response := fun _ _ => some { url := "https://t/new" } }

/-- A plain (non-virtual-host) request for `/old/`. -/
def r2Req : Request :=
  { subdomain := false, cname := false, full_path := "/old/",
    absolute_uri := "https://t/old/" }

/-- An environment whose redirect lookup targets the requesting URL
itself, producing a self-redirect loop. -/
def r3Env : Env :=
  { c5Env with get_redirect_response := fun _ _ => some { url := "https://t/old/" } }

/-- A subdomain request for `/en/v2/a?q#g`. -/
def w10Req1 : Request :=
  { subdomain := true, cname := false, full_path := "/en/v2/a?q#g",
    absolute_uri := "https://p.example.com/en/v2/a?q" }

/-- A subdomain request for `/en/v2/b/c?#`: same first two path segments
as `w10Req1`, different file portion, query and fragment. -/
def w10Req2 : Request :=
  { subdomain := true, cname := false, full_path := "/en/v2/b/c?#",
    absolute_uri := "https://p.example.com/en/v2/b/c?" }

/-- Length of a string built from a character list. -/
theorem string_length_mk (l : List Char) : (String.mk l).length = l.length := rfl

/-- A successful strip whose input does not begin with two separators
yields a string that does not begin with a separator. -/
theorem stripLeadingSlash_noSep (s f : String) (h : stripLeadingSlash s = some f)
    (h2 : beginsWithTwoSeps s = false) : beginsWithSep f = false := by
  obtain ⟨l⟩ := s
  cases l with
  | nil => simp [stripLeadingSlash] at h
  | cons c rest =>
    simp only [stripLeadingSlash, Option.some.injEq] at h
    subst h
    by_cases hc : c = '/'
    · subst hc
      cases rest with
      | nil => simp [beginsWithSep]
      | cons c2 r2 =>
        simp only [beginsWithTwoSeps] at h2
        simp only [beq_self_eq_true, Bool.true_and] at h2
        simp [beginsWithSep, h2]
    · simp [hc, beginsWithSep]

/-- The strip fails exactly on the empty string. -/
theorem stripLeadingSlash_none_iff (s : String) :
    stripLeadingSlash s = none ↔ s = "" := by
  obtain ⟨l⟩ := s
  cases l with
  | nil => simp [stripLeadingSlash]
  | cons c rest =>
    simp only [stripLeadingSlash]
    constructor
    · intro h; exact absurd h (by simp)
    · intro h
      have : (String.mk (c :: rest)).data = ("" : String).data := by rw [h]
      simp at this

/-- C9: the leading-separator stripping removes at most one character (on
any successful strip the length shrinks by at most one and never grows), a
resolved path beginning with two separators still yields a relative path
beginning with a separator, and the stripping step is defined exactly for
non-empty strings. -/
theorem strip_single_char (s : String) :
    (∀ r, stripLeadingSlash s = some r →
      s.length ≤ r.length + 1 ∧ r.length ≤ s.length)
    ∧ (beginsWithTwoSeps s = true →
        ∃ r, stripLeadingSlash s = some r ∧ beginsWithSep r = true)
    ∧ (stripLeadingSlash s = none ↔ s = "") := by
  obtain ⟨l⟩ := s
  refine ⟨?_, ?_, ?_⟩
  · intro r hr
    cases l with
    | nil => simp [stripLeadingSlash] at hr
    | cons c rest =>
      simp only [stripLeadingSlash, Option.some.injEq] at hr
      subst hr
      by_cases hc : c = '/' <;> simp [hc, string_length_mk]
  · intro h
    cases l with
    | nil => simp [beginsWithTwoSeps] at h
    | cons c rest =>
      cases rest with
      | nil => simp [beginsWithTwoSeps] at h
      | cons c2 r2 =>
        simp only [beginsWithTwoSeps, Bool.and_eq_true, beq_iff_eq] at h
        exact ⟨String.mk (c2 :: r2), by simp [stripLeadingSlash, h.1],
          by simp [beginsWithSep, h.2]⟩
  · cases l with
    | nil => simp [stripLeadingSlash]
    | cons c rest =>
      simp only [stripLeadingSlash]
      constructor
      · intro h; exact absurd h (by simp)
      · intro h
        have : (String.mk (c :: rest)).data = ("" : String).data := by rw [h]
        simp at this

/-- Witness for C9 at the concrete input `"//a"`. -/
theorem strip_single_char_demo :
    (("//a" : String).length ≤ ("/a" : String).length + 1
      ∧ ("/a" : String).length ≤ ("//a" : String).length)
    ∧ (∃ r, stripLeadingSlash "//a" = some r ∧ beginsWithSep r = true) :=
  ⟨(strip_single_char "//a").1 "/a" (by decide),
   (strip_single_char "//a").2.1 (by decide)⟩

/-- C4 counterexample: with a resolver output of `//x`, the produced
relative path `/x` begins with a path separator, so the claim that the
relative path never begins with a separator is false as stated. -/
theorem resolved_path_leading_sep_refuted :
    (resolve_404_path c4Env c3Project none none "404.html").map
      (fun t => beginsWithSep t.2.1) = some true := by decide

/-- C4 amended: every `(basepath, relativePath, fullPath)` triple produced
by `resolve_404_path` satisfies `fullPath = join(basepath, relativePath)`;
and provided the resolver's output does not begin with two path separators
(only the first leading separator is stripped), the relative path does not
begin with a separator. -/
theorem resolved_path_invariant (env : Env) (project : Project)
    (vs lang : Option String) (fn b f p : String)
    (h : resolve_404_path env project vs lang fn = some (b, f, p)) :
    p = os_path_join b f ∧
      (beginsWithTwoSeps (env.resolve_path project vs lang fn true) = false →
        beginsWithSep f = false) := by
  cases hs : stripLeadingSlash (env.resolve_path project vs lang fn true) with
  | none => simp [resolve_404_path, hs] at h
  | some fl =>
    simp only [resolve_404_path, hs, Option.some.injEq, Prod.mk.injEq] at h
    obtain ⟨hb, hf, hp⟩ := h
    subst hb hf hp
    exact ⟨rfl, fun h2 => stripLeadingSlash_noSep _ _ hs h2⟩

/-- Witness for C4 at a concrete environment and project. -/
theorem resolved_path_invariant_demo :
    "priv/p/v2/404.html" = os_path_join "priv/p" "v2/404.html"
    ∧ beginsWithSep "v2/404.html" = false :=
  ⟨(resolved_path_invariant wEnv wProject (some "v2") (some "en") "404.html"
      "priv/p" "v2/404.html" "priv/p/v2/404.html" (by decide)).1,
   (resolved_path_invariant wEnv wProject (some "v2") (some "en") "404.html"
      "priv/p" "v2/404.html" "priv/p/v2/404.html" (by decide)).2 (by decide)⟩

/-- C3 counterexample: `c3Project` owns a version record whose slug is the
empty string and whose privacy is `PRIVATE`, yet for the candidate slug
`""` the selected root is the public one, because `if version_slug:` treats
the empty slug as absent; the claim that an existing version record alone
decides is false as stated. -/
theorem privacy_selection_empty_slug_refuted :
    (resolve_404_path c3Env c3Project (some "") none "404.html").map
      (fun t => t.1) = some "pubroot"
    ∧ c3Project.versions.find? (fun v => v.slug == "") =
        some { slug := "", privacy_level := PRIVATE }
    ∧ c3Project.privacy_level ≠ PRIVATE := by decide

/-- C3 amended: if the candidate slug is present, non-empty and names an
existing version record, that record's privacy classification alone
selects the root (private exactly when it is `PRIVATE`); otherwise — the
slug absent or empty, or no record with it — the project's own privacy
classification selects the root in the same way. -/
theorem privacy_selection (env : Env) (project : Project)
    (slug lang : Option String) (fn b f p : String)
    (h : resolve_404_path env project slug lang fn = some (b, f, p)) :
    (∀ s v, slug = some s → s ≠ "" →
        project.versions.find? (fun x => x.slug == s) = some v →
        b = (if v.privacy_level = PRIVATE then env.private_root project
             else env.public_root project))
    ∧ (lookupVersion project slug = none →
        b = (if project.privacy_level = PRIVATE then env.private_root project
             else env.public_root project)) := by
  cases hs : stripLeadingSlash (env.resolve_path project slug lang fn true) with
  | none => simp [resolve_404_path, hs] at h
  | some fl =>
    simp only [resolve_404_path, hs, Option.some.injEq, Prod.mk.injEq] at h
    obtain ⟨hb, hf, hp⟩ := h
    constructor
    · intro s v hslug hs0 hfind
      subst hslug
      rw [← hb]
      simp [lookupVersion, hs0, hfind]
    · intro hnone
      rw [← hb, hnone]
      simp [beq_iff_eq]

/-- Witness for C3: a private version `v2` of a public project selects the
private root. -/
theorem privacy_selection_demo :
    "priv/p" =
      (if (PrivacyLevel.privateLevel : PrivacyLevel) = PRIVATE
       then wEnv.private_root wProject else wEnv.public_root wProject) :=
  (privacy_selection wEnv wProject (some "v2") (some "en") "404.html"
      "priv/p" "v2/404.html" "priv/p/v2/404.html" (by decide)).1
    "v2" { slug := "v2", privacy_level := PrivacyLevel.privateLevel }
    rfl (by decide) (by decide)

/-- Replacing the redirect lookup leaves the post-redirect part of the
handler unchanged. -/
theorem rest_redirect_irrelevant (env : Env)
    (g : Request → String → Option RedirectResponse) (request : Request)
    (t : String) :
    server_error_404_rest { env with get_redirect_response := g } request t =
      server_error_404_rest env request t := rfl

/-- C2: a redirect lookup result whose target URL is byte-identical to the
request's fully-qualified URL is not returned; an infinite-redirect
warning is logged and resolution continues exactly as if no redirect rule
had matched; a result with a different target URL is returned as the
response. -/
theorem redirect_loop_suppressed (env : Env) (request : Request) (t : String)
    (resp : RedirectResponse)
    (h : env.get_redirect_response request request.full_path = some resp) :
    (resp.url = request.absolute_uri →
      server_error_404 env request t =
        (server_error_404 { env with get_redirect_response := fun _ _ => none }
            request t).map
          (fun x => (x.1, LogEntry.infiniteRedirectWarning resp.url :: x.2.1, x.2.2)))
    ∧ (resp.url ≠ request.absolute_uri →
      server_error_404 env request t = some (Response.redirect resp.url, [], [])) := by
  constructor
  · intro hurl
    have hr : server_error_404 { env with get_redirect_response := fun _ _ => none }
        request t = server_error_404_rest env request t := by
      rw [server_error_404]
      exact rest_redirect_irrelevant env _ request t
    rw [hr]
    simp [server_error_404, h, hurl]
  · intro hurl
    simp [server_error_404, h, hurl]

/-- Witness for C2: a self-redirect loop at a concrete environment and
request is suppressed and resolution falls through. -/
theorem redirect_loop_suppressed_demo :
    server_error_404 r3Env r2Req "404.html" =
      (server_error_404 { r3Env with get_redirect_response := fun _ _ => none }
          r2Req "404.html").map
        (fun x => (x.1, LogEntry.infiniteRedirectWarning "https://t/old/" :: x.2.1,
          x.2.2)) :=
  (redirect_loop_suppressed r3Env r2Req "404.html" { url := "https://t/old/" }
    rfl).1 rfl

/-- C6: for a `single_version` project the decomposition is skipped —
language and version slug both stay absent, so the candidate versions are
exactly the absent slug followed by the project's default version; for a
non-`single_version` project the path component is decomposed by its first
two segments into language and version slug; and the probed candidate list
is exactly the product of the candidate versions with the two candidate
filenames. -/
theorem classification_decomposition (project : Project) (fp : String) :
    (project.single_version = true →
      classify_subdomain project fp = (none, none)
      ∧ candidate_versions (classify_subdomain project fp).2 project.default_version
          = [none, some project.default_version])
    ∧ (project.single_version = false →
      ∀ l v rest,
        splitSegs (if (urlparse_path fp).data.head? = some '/'
                   then (urlparse_path fp).data.drop 1
                   else (urlparse_path fp).data) = l :: v :: rest →
        classify_subdomain project fp = (some (String.mk l), some (String.mk v)))
    ∧ candidate_list (classify_subdomain project fp).2 project.default_version
        = (candidate_versions (classify_subdomain project fp).2
            project.default_version).flatMap
          (fun s => candidate_filenames.map (fun f => (s, f))) := by
  refine ⟨?_, ?_, ?_⟩
  · intro h
    simp [classify_subdomain, h, candidate_versions]
  · intro h l v rest hsplit
    rw [List.drop_one] at hsplit
    simp [classify_subdomain, h, language_and_version_from_path, hsplit]
  · simp [candidate_list, candidate_versions, candidate_filenames]

/-- Witness for C6: the request path `/en/v2/missing?x=1` decomposes into
language `en` and version slug `v2`. -/
theorem classification_decomposition_demo :
    classify_subdomain wProject "/en/v2/missing?x=1" =
      (some (String.mk ['e', 'n']), some (String.mk ['v', '2'])) :=
  (classification_decomposition wProject "/en/v2/missing?x=1").2.1 rfl
    ['e', 'n'] ['v', '2'] [['m', 'i', 's', 's', 'i', 'n', 'g']] (by decide)

/-- The search probes at most one path per candidate. -/
theorem searchCandidates_length (env : Env) (project : Project)
    (lang : Option String) :
    ∀ cs probed res, searchCandidates env project lang cs = some (probed, res) →
      probed.length ≤ cs.length := by
  intro cs
  induction cs with
  | nil =>
    intro probed res h
    simp [searchCandidates] at h
    simp [h.1]
  | cons c rest ih =>
    intro probed res h
    obtain ⟨slug, tryfile⟩ := c
    cases hr : resolve_404_path env project slug lang tryfile with
    | none => simp [searchCandidates, hr] at h
    | some triple =>
      obtain ⟨bp, fn, fp⟩ := triple
      by_cases he : env.path_exists fp
      · simp [searchCandidates, hr, he] at h
        simp [← h.1]
      · cases hs2 : searchCandidates env project lang rest with
        | none => simp [searchCandidates, hr, he, hs2] at h
        | some pr =>
          obtain ⟨probed2, r2⟩ := pr
          simp [searchCandidates, hr, he, hs2] at h
          have := ih probed2 r2 hs2
          simp [← h.1]
          omega

/-- A non-empty resolver output makes `resolve_404_path` succeed. -/
theorem resolve_404_path_isSome (env : Env) (project : Project)
    (vs lang : Option String) (fn : String)
    (hne : env.resolve_path project vs lang fn true ≠ "") :
    (resolve_404_path env project vs lang fn).isSome = true := by
  cases hs : stripLeadingSlash (env.resolve_path project vs lang fn true) with
  | none =>
    exact absurd (stripLeadingSlash_none_iff _ |>.mp hs) hne
  | some fl =>
    simp [resolve_404_path, hs]

/-- If every candidate resolves, the search succeeds. -/
theorem searchCandidates_isSome (env : Env) (project : Project)
    (lang : Option String)
    (hne : ∀ p vs l f, env.resolve_path p vs l f true ≠ "") :
    ∀ cs, (searchCandidates env project lang cs).isSome = true := by
  intro cs
  induction cs with
  | nil => simp [searchCandidates]
  | cons c rest ih =>
    obtain ⟨slug, tryfile⟩ := c
    cases hr : resolve_404_path env project slug lang tryfile with
    | none =>
      have := resolve_404_path_isSome env project slug lang tryfile (hne _ _ _ _)
      rw [hr] at this
      simp at this
    | some triple =>
      obtain ⟨bp, fn, fp⟩ := triple
      by_cases he : env.path_exists fp
      · simp [searchCandidates, hr, he]
      · cases hs2 : searchCandidates env project lang rest with
        | none => rw [hs2] at ih; simp at ih
        | some pr => simp [searchCandidates, hr, he, hs2]

/-- The subdomain handler returns a response whenever every candidate
resolves. -/
theorem server_error_404_subdomain_isSome (env : Env) (request : Request)
    (t : String)
    (hne : ∀ p vs l f, env.resolve_path p vs l f true ≠ "") :
    (server_error_404_subdomain env request t).isSome = true := by
  rw [server_error_404_subdomain]
  cases hp : env.project_and_path_from_request request request.full_path with
  | mk projOpt fp =>
    cases projOpt with
    | none => simp
    | some project =>
      cases hs : searchCandidates env project (classify_subdomain project fp).1
          (candidate_list (classify_subdomain project fp).2
            project.default_version) with
      | none =>
        have := searchCandidates_isSome env project
          (classify_subdomain project fp).1 hne
          (candidate_list (classify_subdomain project fp).2 project.default_version)
        rw [hs] at this
        simp at this
      | some pr =>
        obtain ⟨probed, r2⟩ := pr
        cases r2 with
        | none => simp [hs]
        | some hit =>
          obtain ⟨slug, fn, bp⟩ := hit
          simp [hs]

/-- C5: every lookup failure is absorbed — provided the external path
resolver keeps its contract of returning a non-empty path string, the 404
handler always returns a response; no exception escapes to the caller
(`none`, the model of an escaping exception, is impossible). -/
theorem no_exception_escapes (env : Env) (request : Request) (t : String)
    (hne : ∀ p vs l f, env.resolve_path p vs l f true ≠ "") :
    (server_error_404 env request t).isSome = true := by
  have hrest : (server_error_404_rest env request t).isSome = true := by
    rw [server_error_404_rest]
    by_cases hsub : request.subdomain || request.cname
    · simp [hsub, server_error_404_subdomain_isSome env request t hne]
    · simp [hsub]
  rw [server_error_404]
  cases hred : env.get_redirect_response request request.full_path with
  | none => exact hrest
  | some resp =>
    by_cases hurl : resp.url = request.absolute_uri
    · simp [hurl, hrest]
    · simp [hurl]

/-- Witness for C5 at a concrete environment whose resolver output is the
constant non-empty path `/p`. -/
theorem no_exception_escapes_demo :
    (server_error_404 c5Env wReq "404.html").isSome = true :=
  no_exception_escapes c5Env wReq "404.html"
    (fun _ _ _ _ => by show ("/p" : String) ≠ ""; decide)

/-- The probe list of the subdomain handler has at most four entries. -/
theorem server_error_404_subdomain_probe_bound (env : Env) (request : Request)
    (t : String) (r : Response) (logs : List LogEntry) (probed : List String)
    (h : server_error_404_subdomain env request t = some (r, logs, probed)) :
    probed.length ≤ 4 := by
  rw [server_error_404_subdomain] at h
  cases hp : env.project_and_path_from_request request request.full_path with
  | mk projOpt fp =>
    rw [hp] at h
    cases projOpt with
    | none =>
      simp at h
      obtain ⟨h1, h2, h3⟩ := h
      subst h3
      simp
    | some project =>
      dsimp only at h
      cases hs : searchCandidates env project (classify_subdomain project fp).1
          (candidate_list (classify_subdomain project fp).2
            project.default_version) with
      | none => rw [hs] at h; simp at h
      | some pr =>
        obtain ⟨probed2, r2⟩ := pr
        have hlen := searchCandidates_length env project
          (classify_subdomain project fp).1 _ _ _ hs
        simp [candidate_list] at hlen
        rw [hs] at h
        cases r2 with
        | none =>
          simp at h
          obtain ⟨h1, h2, h3⟩ := h
          subst h3
          exact hlen
        | some hit =>
          obtain ⟨slug, fn, bp⟩ := hit
          simp at h
          obtain ⟨h1, h2, h3⟩ := h
          subst h3
          exact hlen

/-- C8: the 404 handler issues at most `2 × 2 = 4` content-store existence
checks per request, sequentially (the probe list records them in issue
order), and the total function always terminates. -/
theorem probe_bound (env : Env) (request : Request) (t : String)
    (r : Response) (logs : List LogEntry) (probed : List String)
    (h : server_error_404 env request t = some (r, logs, probed)) :
    probed.length ≤ 4 := by
  have hrest : ∀ r2 logs2,
      server_error_404_rest env request t = some (r2, logs2, probed) →
      probed.length ≤ 4 := by
    intro r2 logs2 h2
    rw [server_error_404_rest] at h2
    by_cases hsub : request.subdomain || request.cname
    · rw [if_pos hsub] at h2
      exact server_error_404_subdomain_probe_bound env request t r2 logs2 probed h2
    · rw [if_neg hsub] at h2
      simp at h2
      obtain ⟨h1a, h2a, h3a⟩ := h2
      subst h3a
      simp
  rw [server_error_404] at h
  cases hred : env.get_redirect_response request request.full_path with
  | none =>
    rw [hred] at h
    exact hrest r logs h
  | some resp =>
    rw [hred] at h
    dsimp only at h
    by_cases hurl : resp.url = request.absolute_uri
    · rw [if_pos hurl, Option.map_eq_some'] at h
      obtain ⟨⟨ra, la, pa⟩, ha, hb⟩ := h
      simp at hb
      obtain ⟨hb1, hb2, hb3⟩ := hb
      subst hb3
      exact hrest ra la ha
    · rw [if_neg hurl] at h
      simp at h
      obtain ⟨h1, h2, h3⟩ := h
      subst h3
      simp

/-- Witness for C8: the exhaustive search at a concrete environment probes
exactly four paths. -/
theorem probe_bound_demo : (["PR/p", "PR/p", "PB/p", "PB/p"] : List String).length ≤ 4 :=
  probe_bound c5Env wReq "404.html" (Response.rendered "404.html" 404) []
    ["PR/p", "PR/p", "PB/p", "PB/p"] (by decide)

/-- When no path exists on the content store the search exhausts every
candidate and reports no hit. -/
theorem searchCandidates_all_missing (env : Env) (project : Project)
    (lang : Option String) (hex : ∀ s, env.path_exists s = false)
    (hne : ∀ p vs l f, env.resolve_path p vs l f true ≠ "") :
    ∀ cs, ∃ probed, searchCandidates env project lang cs = some (probed, none) := by
  intro cs
  induction cs with
  | nil => exact ⟨[], rfl⟩
  | cons c rest ih =>
    obtain ⟨slug, tryfile⟩ := c
    cases hr : resolve_404_path env project slug lang tryfile with
    | none =>
      have := resolve_404_path_isSome env project slug lang tryfile (hne _ _ _ _)
      rw [hr] at this
      simp at this
    | some triple =>
      obtain ⟨bp, fn, fp⟩ := triple
      obtain ⟨probed, hprobed⟩ := ih
      exact ⟨fp :: probed, by simp [searchCandidates, hr, hex fp, hprobed]⟩

/-- C7: when the redirect lookup yields nothing usable (no match, or a
suppressed self-redirect) and the request carries no virtual-host context,
the candidate search is never entered (no probe is issued) and the
platform default template is rendered with status 404; the same default
404 response is produced when classification yields no project, and when
the search exhausts all candidates. -/
theorem default_404_paths (env : Env) (request : Request) (t : String)
    (hred : env.get_redirect_response request request.full_path = none ∨
      ∃ resp, env.get_redirect_response request request.full_path = some resp ∧
        resp.url = request.absolute_uri) :
    (request.subdomain = false → request.cname = false →
      ∃ logs, server_error_404 env request t =
        some (Response.rendered t 404, logs, []))
    ∧ ((env.project_and_path_from_request request request.full_path).1 = none →
      ∃ logs, server_error_404 env request t =
        some (Response.rendered t 404, logs, []))
    ∧ ((∀ s, env.path_exists s = false) →
      (∀ p vs l f, env.resolve_path p vs l f true ≠ "") →
      ∃ logs probed, server_error_404 env request t =
        some (Response.rendered t 404, logs, probed)) := by
  have key : ∀ r2 l2 p2, server_error_404_rest env request t = some (r2, l2, p2) →
      ∃ logs, server_error_404 env request t = some (r2, logs, p2) := by
    intro r2 l2 p2 hrest
    rcases hred with hnone | ⟨resp, hsome, hurl⟩
    · exact ⟨l2, by rw [server_error_404, hnone]; exact hrest⟩
    · refine ⟨LogEntry.infiniteRedirectWarning resp.url :: l2, ?_⟩
      rw [server_error_404, hsome]
      dsimp only
      rw [if_pos hurl, hrest]
      rfl
  refine ⟨?_, ?_, ?_⟩
  · intro hsub hcname
    obtain ⟨logs, hl⟩ := key (Response.rendered t 404) [] []
      (by simp [server_error_404_rest, hsub, hcname])
    exact ⟨logs, hl⟩
  · intro hproj
    cases hp : env.project_and_path_from_request request request.full_path with
    | mk po fp =>
      rw [hp] at hproj
      dsimp only at hproj
      subst hproj
      by_cases hsubd : request.subdomain || request.cname
      · obtain ⟨logs, hl⟩ := key (Response.rendered t 404) [] []
          (by rw [server_error_404_rest, if_pos hsubd, server_error_404_subdomain, hp])
        exact ⟨logs, hl⟩
      · obtain ⟨logs, hl⟩ := key (Response.rendered t 404) [] []
          (by rw [server_error_404_rest, if_neg hsubd])
        exact ⟨logs, hl⟩
  · intro hex hne
    by_cases hsubd : request.subdomain || request.cname
    · cases hp : env.project_and_path_from_request request request.full_path with
      | mk po fp =>
        cases po with
        | none =>
          obtain ⟨logs, hl⟩ := key (Response.rendered t 404) [] []
            (by rw [server_error_404_rest, if_pos hsubd,
                  server_error_404_subdomain, hp])
          exact ⟨logs, [], hl⟩
        | some project =>
          obtain ⟨probed, hsearch⟩ := searchCandidates_all_missing env project
            (classify_subdomain project fp).1 hex hne
            (candidate_list (classify_subdomain project fp).2
              project.default_version)
          obtain ⟨logs, hl⟩ := key (Response.rendered t 404) [] probed (by
            rw [server_error_404_rest, if_pos hsubd, server_error_404_subdomain, hp]
            dsimp only
            rw [hsearch])
          exact ⟨logs, probed, hl⟩
    · obtain ⟨logs, hl⟩ := key (Response.rendered t 404) [] []
        (by rw [server_error_404_rest, if_neg hsubd])
      exact ⟨logs, [], hl⟩

/-- Witness for C7: a plain request with no matching redirect renders the
default template with status 404 and issues no probe. -/
theorem default_404_paths_demo :
    ∃ logs, server_error_404 c5Env r2Req "404.html" =
      some (Response.rendered "404.html" 404, logs, []) :=
  (default_404_paths c5Env r2Req "404.html" (Or.inl rfl)).1 rfl rfl

/-- C1: the candidates are probed in the exact order (request version,
`404.html`), (request version, `404/index.html`), (default version,
`404.html`), (default version, `404/index.html`); the first candidate
whose full path exists terminates the search, its file is served with
status 404, and no later candidate is probed (the probe list stops at the
hit). -/
theorem candidate_search_order (env : Env) (request : Request) (t : String)
    (project : Project) (fp : String) (language version_slug : Option String)
    (b0 f0 p0 b1 f1 p1 b2 f2 p2 b3 f3 p3 : String)
    (hproj : env.project_and_path_from_request request request.full_path =
      (some project, fp))
    (hcls : classify_subdomain project fp = (language, version_slug))
    (h0 : resolve_404_path env project version_slug language "404.html" =
      some (b0, f0, p0))
    (h1 : resolve_404_path env project version_slug language "404/index.html" =
      some (b1, f1, p1))
    (h2 : resolve_404_path env project (some project.default_version) language
      "404.html" = some (b2, f2, p2))
    (h3 : resolve_404_path env project (some project.default_version) language
      "404/index.html" = some (b3, f3, p3)) :
    server_error_404_subdomain env request t =
      (if env.path_exists p0 then
        some (Response.file f0 b0 404,
          [LogEntry.serving404Debug project.slug version_slug], [p0])
      else if env.path_exists p1 then
        some (Response.file f1 b1 404,
          [LogEntry.serving404Debug project.slug version_slug], [p0, p1])
      else if env.path_exists p2 then
        some (Response.file f2 b2 404,
          [LogEntry.serving404Debug project.slug (some project.default_version)],
          [p0, p1, p2])
      else if env.path_exists p3 then
        some (Response.file f3 b3 404,
          [LogEntry.serving404Debug project.slug (some project.default_version)],
          [p0, p1, p2, p3])
      else some (Response.rendered t 404, [], [p0, p1, p2, p3])) := by
  rw [server_error_404_subdomain, hproj]
  dsimp only
  rw [hcls]
  by_cases e0 : env.path_exists p0 <;> by_cases e1 : env.path_exists p1 <;>
    by_cases e2 : env.path_exists p2 <;> by_cases e3 : env.path_exists p3 <;>
      simp [searchCandidates, candidate_list, h0, h1, h2, h3, e0, e1, e2, e3]

/-- Witness for C1: with nothing on the content store, all four candidate
paths are probed in order and the default template is rendered. -/
theorem candidate_search_order_demo :
    server_error_404_subdomain wEnv wReq "404.html" =
      some (Response.rendered "404.html" 404, [],
        ["priv/p/v2/404.html", "priv/p/v2/404/index.html",
         "pub/p/latest/404.html", "pub/p/latest/404/index.html"]) := by
  have h := candidate_search_order wEnv wReq "404.html" wProject
    "/en/v2/missing?x=1" (some "en") (some "v2")
    "priv/p" "v2/404.html" "priv/p/v2/404.html"
    "priv/p" "v2/404/index.html" "priv/p/v2/404/index.html"
    "pub/p" "latest/404.html" "pub/p/latest/404.html"
    "pub/p" "latest/404/index.html" "pub/p/latest/404/index.html"
    (by decide) (by decide) (by decide) (by decide) (by decide) (by decide)
  rw [h]
  decide

/-- Character data of the one-character separator strings. -/
theorem slash_data : ("/" : String).data = ['/'] := by decide

/-- Character data of the query separator. -/
theorem qmark_data : ("?" : String).data = ['?'] := by decide

/-- Character data of the fragment separator. -/
theorem hash_data : ("#" : String).data = ['#'] := by decide

/-- Taking until an absent character keeps the whole list. -/
theorem takeUntil_of_not_mem (c : Char) (xs : List Char) (h : c ∉ xs) :
    takeUntilChar c xs = xs := by
  induction xs with
  | nil => rfl
  | cons x xs ih =>
    simp only [List.mem_cons, not_or] at h
    have h1 : (x != c) = true := by
      simp only [bne_iff_ne, ne_eq]
      exact fun hh => h.1 hh.symm
    have h2 := ih h.2
    rw [takeUntilChar] at h2
    rw [takeUntilChar, List.takeWhile_cons, if_pos h1, h2]

/-- Taking until the first occurrence of a character returns the prefix
before it. -/
theorem takeUntil_append (c : Char) (xs ys : List Char) (h : c ∉ xs) :
    takeUntilChar c (xs ++ c :: ys) = xs := by
  induction xs with
  | nil => simp [takeUntilChar, List.takeWhile_cons]
  | cons x xs ih =>
    simp only [List.mem_cons, not_or] at h
    have h1 : (x != c) = true := by
      simp only [bne_iff_ne, ne_eq]
      exact fun hh => h.1 hh.symm
    have h2 := ih h.2
    rw [takeUntilChar] at h2
    rw [List.cons_append, takeUntilChar, List.takeWhile_cons, if_pos h1, h2]

/-- Splitting `;`-parameters off a list that contains no `;` keeps it
unchanged. -/
theorem splitParamsL_no_semi (l : List Char) (h : ';' ∉ l) :
    splitParamsL l = (l, []) := by
  simp only [splitParamsL]
  by_cases hs : '/' ∈ l
  · have ht : ';' ∉ (l.reverse.takeWhile (fun x => x != '/')).reverse := by
      intro hmem
      rw [List.mem_reverse] at hmem
      have := (List.takeWhile_prefix _).sublist.subset hmem
      rw [List.mem_reverse] at this
      exact h this
    simp [hs, ht]
  · simp [hs, h]

/-- Splitting segments across the first separator peels off the prefix. -/
theorem splitSegs_append (xs ys : List Char) (h : '/' ∉ xs) :
    splitSegs (xs ++ '/' :: ys) = xs :: splitSegs ys := by
  induction xs with
  | nil => simp [splitSegs]
  | cons x xs ih =>
    simp only [List.mem_cons, not_or] at h
    have h1 : ¬x = '/' := fun hh => h.1 hh.symm
    simp [splitSegs, h1, ih h.2]

/-- Segment splitting never produces an empty list of segments. -/
theorem splitSegs_ne_nil (l : List Char) : splitSegs l ≠ [] := by
  cases l with
  | nil => simp [splitSegs]
  | cons c rest =>
    by_cases hc : c = '/'
    · simp [splitSegs, hc]
    · cases hsp : splitSegs rest with
      | nil => simp [splitSegs, hc, hsp]
      | cons s ss => simp [splitSegs, hc, hsp]

/-- For a non-`single_version` project, a full path of the shape
`/l/v/t?q#g` — with `l` non-empty and `l`, `v` free of delimiter
characters, the tail `t` free of `?`, `#`, `;` and the query free of `#` —
classifies to language `l` and version slug `v`. -/
theorem classify_shape (project : Project) (l v tl q g : String)
    (hsv : project.single_version = false)
    (hl0 : l.data ≠ []) (hlS : '/' ∉ l.data) (hlQ : '?' ∉ l.data)
    (hlH : '#' ∉ l.data) (hlP : ';' ∉ l.data)
    (hvS : '/' ∉ v.data) (hvQ : '?' ∉ v.data) (hvH : '#' ∉ v.data)
    (hvP : ';' ∉ v.data)
    (htQ : '?' ∉ tl.data) (htH : '#' ∉ tl.data) (htP : ';' ∉ tl.data)
    (hqH : '#' ∉ q.data) :
    classify_subdomain project
      ("/" ++ l ++ "/" ++ v ++ "/" ++ tl ++ "?" ++ q ++ "#" ++ g) =
      (some l, some v) := by
  have hdata : ("/" ++ l ++ "/" ++ v ++ "/" ++ tl ++ "?" ++ q ++ "#" ++ g).data
      = (('/' :: (l.data ++ '/' :: (v.data ++ '/' :: tl.data))) ++ '?' :: q.data)
        ++ '#' :: g.data := by
    simp [String.data_append, slash_data, qmark_data, hash_data]
  have hHP : '#' ∉ ('/' :: (l.data ++ '/' :: (v.data ++ '/' :: tl.data))) ++
      '?' :: q.data := by
    simp [List.mem_cons, List.mem_append, hlH, hvH, htH, hqH]
  have hQP : '?' ∉ '/' :: (l.data ++ '/' :: (v.data ++ '/' :: tl.data)) := by
    simp [List.mem_cons, List.mem_append, hlQ, hvQ, htQ]
  have hSemiP : ';' ∉ '/' :: (l.data ++ '/' :: (v.data ++ '/' :: tl.data)) := by
    simp [List.mem_cons, List.mem_append, hlP, hvP, htP]
  obtain ⟨c, cs, hc⟩ := List.exists_cons_of_ne_nil hl0
  have hcne : c ≠ '/' := by
    intro h
    apply hlS
    rw [hc, h]
    exact List.mem_cons_self _ _
  have htake : ('/' :: (l.data ++ '/' :: (v.data ++ '/' :: tl.data))).take 2 ≠
      ['/', '/'] := by
    rw [hc]
    simp [hcne]
  have hpath : urlparse_path
      ("/" ++ l ++ "/" ++ v ++ "/" ++ tl ++ "?" ++ q ++ "#" ++ g) =
      String.mk ('/' :: (l.data ++ '/' :: (v.data ++ '/' :: tl.data))) := by
    simp only [urlparse_path, urlparse]
    rw [hdata, takeUntil_append '#' _ _ hHP, takeUntil_append '?' _ _ hQP]
    rw [if_neg htake]
    simp [splitParamsL_no_semi _ hSemiP]
  obtain ⟨s, ss, hss⟩ := List.exists_cons_of_ne_nil (splitSegs_ne_nil tl.data)
  have hsegs : splitSegs (l.data ++ '/' :: (v.data ++ '/' :: tl.data)) =
      l.data :: v.data :: s :: ss := by
    rw [splitSegs_append _ _ hlS, splitSegs_append _ _ hvS, hss]
  simp only [classify_subdomain, hsv, Bool.not_false, if_true, hpath]
  simp [language_and_version_from_path, hsegs]

/-- C10: for a non-`single_version` project, the probe sequence depends on
the request path only through its first two path segments — two requests
whose paths agree on language and version slug but differ in the remaining
file portion, query string, or fragment issue identical probe lists. -/
theorem candidate_paths_depend_on_two_segments (env : Env) (req1 req2 : Request)
    (t : String) (project : Project) (l v t1 t2 q1 q2 g1 g2 : String)
    (hsv : project.single_version = false)
    (hl0 : l.data ≠ []) (hlS : '/' ∉ l.data) (hlQ : '?' ∉ l.data)
    (hlH : '#' ∉ l.data) (hlP : ';' ∉ l.data)
    (hvS : '/' ∉ v.data) (hvQ : '?' ∉ v.data) (hvH : '#' ∉ v.data)
    (hvP : ';' ∉ v.data)
    (ht1Q : '?' ∉ t1.data) (ht1H : '#' ∉ t1.data) (ht1P : ';' ∉ t1.data)
    (ht2Q : '?' ∉ t2.data) (ht2H : '#' ∉ t2.data) (ht2P : ';' ∉ t2.data)
    (hq1H : '#' ∉ q1.data) (hq2H : '#' ∉ q2.data)
    (hp1 : env.project_and_path_from_request req1 req1.full_path =
      (some project, "/" ++ l ++ "/" ++ v ++ "/" ++ t1 ++ "?" ++ q1 ++ "#" ++ g1))
    (hp2 : env.project_and_path_from_request req2 req2.full_path =
      (some project, "/" ++ l ++ "/" ++ v ++ "/" ++ t2 ++ "?" ++ q2 ++ "#" ++ g2)) :
    subdomain_probes env req1 t = subdomain_probes env req2 t := by
  have hc1 := classify_shape project l v t1 q1 g1 hsv hl0 hlS hlQ hlH hlP
    hvS hvQ hvH hvP ht1Q ht1H ht1P hq1H
  have hc2 := classify_shape project l v t2 q2 g2 hsv hl0 hlS hlQ hlH hlP
    hvS hvQ hvH hvP ht2Q ht2H ht2P hq2H
  simp only [subdomain_probes, server_error_404_subdomain, hp1, hp2, hc1, hc2]

/-- Witness for C10: the requests `/en/v2/a?q#g` and `/en/v2/b/c?#` issue
identical probe lists. -/
theorem candidate_paths_depend_on_two_segments_demo :
    subdomain_probes c5Env w10Req1 "404.html" =
      subdomain_probes c5Env w10Req2 "404.html" :=
  candidate_paths_depend_on_two_segments c5Env w10Req1 w10Req2 "404.html"
    wProject "en" "v2" "a" "b/c" "q" "" "g" "" rfl
    (by decide) (by decide) (by decide) (by decide) (by decide)
    (by decide) (by decide) (by decide) (by decide)
    (by decide) (by decide) (by decide)
    (by decide) (by decide) (by decide)
    (by decide) (by decide)
    (by decide) (by decide)

end RtdViews
